import Mathlib

/-!
# DealGauge — verification of the listing store and comparable engine

Shallow embedding of the DealGauge browser extension's core logic:
the listing store merge (`src/lib/parse.ts` / `src/lib/storage.ts`) and the
comparable-matching / price-estimation engine (`src/lib/compare.ts`).

Modelling conventions:
* JavaScript `number | null` fields are `Option ℚ` (`none` = `null`); JS
  number arithmetic is modelled exactly over `ℚ`.
* JS truthiness on numbers (`0`, `NaN` falsy) is `jsNumTruthy`; on strings
  (`""` falsy) it is `jsStrTruthy`.
* JS objects used as string-keyed maps are association lists in insertion
  order; `Object.values` is the list of second components.
* `Array.prototype.sort` with a numeric-difference comparator is a stable
  ascending sort, modelled with `List.insertionSort` (which is stable).
-/

namespace DealGauge

/-- `source` field of a listing: provenance of the most recent update. -/
inductive Source where
  | search
  | detail
deriving DecidableEq, Repr

/-- `trim` values: the single special-cased sub-classification. -/
inductive Trim where
  | rs
  | standard
deriving DecidableEq, Repr

/-- One entry of `price_history`. -/
structure PricePoint where
  price_eur : ℚ
  captured_at : String
deriving DecidableEq, Repr

/-- The `Listing` record from `src/lib/types.ts`. -/
structure Listing where
  id : String
  url : String
  title : Option String
  price_eur : Option ℚ
  price_history : List PricePoint
  brand : Option String
  model : Option String
  trim : Option Trim
  year : Option ℚ
  mileage_km : Option ℚ
  ps : Option ℚ
  erstzulassung : Option String
  fuel : Option String
  drivetrain : Option String
  transmission : Option String
  captured_at : String
  source : Source
deriving DecidableEq, Repr

/-- `ListingsMap = Record<string, Listing>`: a string-keyed object in
insertion order. -/
abbrev ListingsMap := List (String × Listing)

/-- `Object.values(listings)`. -/
def valuesOf (listings : ListingsMap) : List Listing :=
  listings.map Prod.snd

/-- JS truthiness of a nullable number: `null`, `0` are falsy. -/
def jsNumTruthy : Option ℚ → Bool
  | some q => q != 0
  | none => false

/-- JS truthiness of a nullable string: `null`, `""` are falsy. -/
def jsStrTruthy : Option String → Bool
  | some s => s != ""
  | none => false

/-! ## Merge (`mergeListing`, src/lib/parse.ts lines 85–111) -/

/-- The `price_history` computation inside `mergeListing`: append the
incoming price when it is non-null and differs from the last entry. -/
def mergeHistory (hist : List PricePoint) (incoming : Listing) : List PricePoint :=
  match incoming.price_eur with
  | none => hist
  | some p =>
    match hist.getLast? with
    | none => hist ++ [⟨p, incoming.captured_at⟩]
    | some last => if last.price_eur = p then hist else hist ++ [⟨p, incoming.captured_at⟩]

/-- `prefer(current, next) = next ?? current`. -/
def prefer {α : Type} (current next : Option α) : Option α :=
  next.orElse (fun _ => current)

/-- `mergeListing(existing, incoming)` from src/lib/parse.ts.  The result
record is built as `{...existing, ...}`: every field not explicitly listed
(`id`, `erstzulassung`, `fuel`, `drivetrain`, `transmission`) is copied
from `existing` unconditionally. -/
def mergeListing (existing : Option Listing) (incoming : Listing) : Listing :=
  match existing with
  | none => incoming
  | some e =>
    { e with
      url := if incoming.url = "" then e.url else incoming.url
      title := prefer e.title incoming.title
      price_eur := prefer e.price_eur incoming.price_eur
      price_history := mergeHistory e.price_history incoming
      brand := prefer e.brand incoming.brand
      model := prefer e.model incoming.model
      trim := prefer e.trim incoming.trim
      year := prefer e.year incoming.year
      mileage_km := prefer e.mileage_km incoming.mileage_km
      ps := prefer e.ps incoming.ps
      captured_at := incoming.captured_at
      source := if incoming.source = .detail then .detail else e.source }

/-! ## URL canonicalization and text normalization (src/lib/parse.ts) -/

/-- Part of `rawUrl` before the first occurrence of character `c`
(JS `rawUrl.split(c)[0]`). -/
def beforeChar (c : Char) (s : String) : String :=
  ⟨s.toList.takeWhile (fun a => a ≠ c)⟩

/-- Model of the platform `new URL` constructor restricted to
`scheme://host/path` URLs: returns `(origin, pathname)` on success and
`none` (the constructor throws) otherwise.  Strings without a
`scheme://host` prefix — the only shapes this development evaluates the
model on — take the `none` branch exactly as the source's `catch` does. -/
def urlParse (raw : String) : Option (String × String) :=
  let chars := raw.toList
  let scheme := chars.takeWhile (fun a => a ≠ ':')
  if scheme.isEmpty ∨ ¬ scheme.all Char.isAlpha ∨
     chars.drop scheme.length ≠ ':' :: '/' :: '/' :: chars.drop (scheme.length + 3) then none
  else
    let after := chars.drop (scheme.length + 3)
    let host := after.takeWhile (fun c => c ≠ '/' ∧ c ≠ '?' ∧ c ≠ '#')
    if host.isEmpty then none
    else
      let tail := (after.drop host.length).takeWhile (fun c => c ≠ '?' ∧ c ≠ '#')
      some (⟨scheme⟩ ++ "://" ++ ⟨host⟩, if tail.isEmpty then "/" else ⟨tail⟩)

/-- `canonicalizeUrl` from src/lib/parse.ts: `origin + pathname` of the
parsed URL, or, when parsing throws, the raw string cut at the first `#`
and then at the first `?`. -/
def canonicalizeUrl (rawUrl : String) : String :=
  match urlParse rawUrl with
  | some (origin, path) => origin ++ path
  | none => beforeChar '?' (beforeChar '#' rawUrl)

/-- Unicode combining marks (`\p{M}`), modelled on the combining
diacritical marks block that NFKD decomposition of Latin text produces. -/
def isCombiningMark (c : Char) : Bool :=
  0x300 ≤ c.val ∧ c.val ≤ 0x36F

/-- `normalizeText` from src/lib/parse.ts: lowercase, NFKD-decompose and
strip marks.  The NFKD decomposition step is modelled as the identity
(inputs are taken already decomposed); mark stripping is explicit. -/
def normalizeText (text : Option String) : String :=
  ⟨((text.getD "").toLower).toList.filter (fun c => ¬ isCombiningMark c)⟩

/-! ## Comparable engine (src/lib/compare.ts) -/

/-- `AnalysisFilters` from src/lib/types.ts. -/
structure AnalysisFilters where
  matchFuel : Bool
  matchDrivetrain : Bool
  matchTransmission : Bool
deriving DecidableEq, Repr

/-- `defaultAnalysisFilters()`: all three strict-attribute filters off. -/
def defaultAnalysisFilters : AnalysisFilters :=
  { matchFuel := false, matchDrivetrain := false, matchTransmission := false }

/-- The engine output record `Analysis` from src/lib/types.ts. -/
structure Analysis where
  expected_price : Option ℚ
  diff_eur : Option ℚ
  diff_pct : Option ℚ
  deal_score : Option ℚ
  comparables_count : ℕ
  comparables : List Listing
  not_enough_data : Bool
  applied_filters : AnalysisFilters
deriving DecidableEq, Repr

/-- `MIN_COMPARABLES_FOR_WEIGHTED_ESTIMATE`. -/
def MIN_COMPARABLES_FOR_WEIGHTED_ESTIMATE : ℕ := 10

/-- Maximal runs of consecutive decimal digits of a string, in order of
occurrence (what the global regex `/\d{6,}/g` scans; length filtering is
applied afterwards). -/
def digitRuns (s : String) : List String :=
  go s.toList []
where
  go : List Char → List Char → List String
    | [], run => if run.isEmpty then [] else [⟨run.reverse⟩]
    | c :: cs, run =>
      if c.isDigit then go cs (c :: run)
      else if run.isEmpty then go cs []
      else ⟨run.reverse⟩ :: go cs []

/-- `extractNumericListingId` from src/lib/compare.ts: the last maximal run
of 6 or more consecutive digits, or `null` when the input is falsy or has
no such run. -/
def extractNumericListingId (value : Option String) : Option String :=
  match value with
  | none => none
  | some v =>
    if v = "" then none
    else ((digitRuns v).filter (fun r => 6 ≤ r.length)).getLast?

/-- `median` from src/lib/compare.ts: `null` on the empty list, else the
middle of the ascending sort (mean of the two middles for even length). -/
def median (values : List ℚ) : Option ℚ :=
  if values = [] then none
  else
    let sorted := values.insertionSort (· ≤ ·)
    let mid := sorted.length / 2
    if sorted.length % 2 = 0 then some ((sorted.getD (mid - 1) 0 + sorted.getD mid 0) / 2)
    else some (sorted.getD mid 0)

/-- `trimPriceOutliers` from src/lib/compare.ts: below the weighted-estimate
threshold return the input; otherwise sort ascending by `price_eur ?? 0`,
drop `floor(length * 0.1)` items at each end (`Math.floor(n * 0.1) = n / 10`
for every list length arising here), falling back to the sorted list when
trimming is degenerate. -/
def trimPriceOutliers (listings : List Listing) : List Listing :=
  if listings.length < MIN_COMPARABLES_FOR_WEIGHTED_ESTIMATE then listings
  else
    let sorted := listings.insertionSort
      (fun a b => a.price_eur.getD 0 ≤ b.price_eur.getD 0)
    let trimCount := sorted.length / 10
    if trimCount = 0 then sorted
    else
      let trimmed := (sorted.take (sorted.length - trimCount)).drop trimCount
      if trimmed.length > 0 then trimmed else sorted

/-- `listingDistanceWeight` from src/lib/compare.ts.  Note the explicit
`!== null` tests here (unlike the truthiness tests of the filter). -/
def listingDistanceWeight (target comparable : Listing) : ℚ :=
  let yearDistance : ℚ :=
    match target.year, comparable.year with
    | some t, some c => |t - c|
    | _, _ => 2
  let mileageDistanceRatio : ℚ :=
    match target.mileage_km, comparable.mileage_km with
    | some t, some c => |t - c| / max t 1
    | _, _ => 1 / 4
  1 / (1 + yearDistance + mileageDistanceRatio * 4)

/-- The running `(weightedSum, weightTotal)` accumulation of
`weightedExpectedPrice`, skipping null-priced comparables. -/
def weightAccum (target : Listing) (comparables : List Listing) : ℚ × ℚ :=
  comparables.foldl
    (fun acc c =>
      match c.price_eur with
      | none => acc
      | some p =>
        (acc.1 + p * listingDistanceWeight target c, acc.2 + listingDistanceWeight target c))
    (0, 0)

/-- `weightedExpectedPrice` from src/lib/compare.ts: weighted average of
the non-null prices, with a plain-median fallback when the total weight is
zero, and `null` on the empty list. -/
def weightedExpectedPrice (target : Listing) (comparables : List Listing) : Option ℚ :=
  if comparables = [] then none
  else
    let acc := weightAccum target comparables
    if acc.2 = 0 then median (comparables.filterMap Listing.price_eur)
    else some (acc.1 / acc.2)

/-- `matchesStrictAttribute` from src/lib/compare.ts: both values truthy
(non-null, non-empty) and equal under `normalizeText`. -/
def matchesStrictAttribute (targetValue comparableValue : Option String) : Bool :=
  if ¬ jsStrTruthy targetValue ∨ ¬ jsStrTruthy comparableValue then false
  else normalizeText targetValue == normalizeText comparableValue

/-- `matchesActiveFilters` from src/lib/compare.ts. -/
def matchesActiveFilters (target comparable : Listing) (filters : AnalysisFilters) : Bool :=
  let hasTechnicalFilter := filters.matchFuel || filters.matchDrivetrain || filters.matchTransmission
  if hasTechnicalFilter ∧ comparable.source ≠ .detail then false
  else if filters.matchFuel ∧ ¬ matchesStrictAttribute target.fuel comparable.fuel then false
  else if filters.matchDrivetrain ∧ ¬ matchesStrictAttribute target.drivetrain comparable.drivetrain then false
  else if filters.matchTransmission ∧ ¬ matchesStrictAttribute target.transmission comparable.transmission then false
  else true

/-- `extractNumericListingId(l.id) ?? extractNumericListingId(l.url)`, the
numeric-identifier computation `findComparables` performs for the target
and, inside the filter, for each item. -/
def numericIdOf (l : Listing) : Option String :=
  (extractNumericListingId (some l.id)).orElse
    (fun _ => extractNumericListingId (some l.url))

/-- `itemNumericId && targetNumericId && itemNumericId === targetNumericId`
(the extracted ids are never the empty string, so truthiness is presence). -/
def numericIdMatch : Option String → Option String → Bool
  | some a, some b => a == b
  | _, _ => false

/-- The filter body of `findComparables` (the arrow function passed to
`.filter`), with the values captured from the enclosing scope —
`targetCanonicalUrl` and `targetNumericId` — as parameters. -/
def comparableFilter (target : Listing) (targetCanonicalUrl : String)
    (targetNumericId : Option String) (activeFilters : AnalysisFilters)
    (item : Listing) : Bool :=
  if item.id = target.id then false
  else if item.url ≠ "" ∧ target.url ≠ "" ∧ canonicalizeUrl item.url = targetCanonicalUrl then false
  else if numericIdMatch (numericIdOf item) targetNumericId then false
  else if ¬ (jsStrTruthy item.brand ∧ jsStrTruthy item.model ∧
             jsStrTruthy target.brand ∧ jsStrTruthy target.model) then false
  else if item.brand ≠ target.brand ∨ item.model ≠ target.model then false
  else if item.trim ≠ target.trim then false
  else if ¬ matchesActiveFilters target item activeFilters then false
  else if jsNumTruthy item.year ∧ jsNumTruthy target.year ∧
          |item.year.getD 0 - target.year.getD 0| > 2 then false
  else if jsNumTruthy item.mileage_km ∧ jsNumTruthy target.mileage_km ∧
          |item.mileage_km.getD 0 - target.mileage_km.getD 0| >
            target.mileage_km.getD 0 * (1 / 4) then false
  else if jsNumTruthy item.ps ∧ jsNumTruthy target.ps ∧ item.ps ≠ target.ps then false
  else item.price_eur ≠ none

/-- `findComparables` from src/lib/compare.ts. -/
def findComparables (target : Listing) (listings : ListingsMap)
    (filters : Option AnalysisFilters) : List Listing :=
  let activeFilters := filters.getD defaultAnalysisFilters
  let targetCanonicalUrl := canonicalizeUrl target.url
  let targetNumericId := numericIdOf target
  (valuesOf listings).filter
    (comparableFilter target targetCanonicalUrl targetNumericId activeFilters)

/-- The composite distance score of the display ranking in
`analyzeListing`: `2*yearDiff + mileageDiff/1000 + psDiff/10` with
truthiness-guarded defaults `10`, `999999`, `200`. -/
def rankScore (target a : Listing) : ℚ :=
  let yearDiff : ℚ :=
    if jsNumTruthy target.year ∧ jsNumTruthy a.year then |target.year.getD 0 - a.year.getD 0|
    else 10
  let mileageDiff : ℚ :=
    if jsNumTruthy target.mileage_km ∧ jsNumTruthy a.mileage_km then
      |target.mileage_km.getD 0 - a.mileage_km.getD 0|
    else 999999
  let psDiff : ℚ :=
    if jsNumTruthy target.ps ∧ jsNumTruthy a.ps then |target.ps.getD 0 - a.ps.getD 0|
    else 200
  yearDiff * 2 + mileageDiff / 1000 + psDiff / 10

/-- The stable ascending sort by `rankScore` (the JS
`[...comparables].sort` with the numeric-difference comparator). -/
def rankComparables (target : Listing) (comparables : List Listing) : List Listing :=
  comparables.insertionSort (fun a b => rankScore target a ≤ rankScore target b)

/-- The `expected` computation of `analyzeListing`: plain median of the
comparable prices on sparse data, weighted average over the
outlier-trimmed priced comparables otherwise. -/
def expectedPriceOf (target : Listing) (listings : ListingsMap)
    (appliedFilters : AnalysisFilters) : Option ℚ :=
  let comparables := findComparables target listings (some appliedFilters)
  let pricedComparables := comparables.filter (fun item => item.price_eur ≠ none)
  let prices := pricedComparables.filterMap Listing.price_eur
  let sparseData := comparables.length < MIN_COMPARABLES_FOR_WEIGHTED_ESTIMATE
  let estimateBase := if sparseData then pricedComparables else trimPriceOutliers pricedComparables
  if sparseData then median prices else weightedExpectedPrice target estimateBase

/-- `analyzeListing` from src/lib/compare.ts. -/
def analyzeListing (target : Listing) (listings : ListingsMap)
    (filters : Option AnalysisFilters) : Analysis :=
  let appliedFilters := filters.getD defaultAnalysisFilters
  let comparables := findComparables target listings (some appliedFilters)
  let sparseData := comparables.length < MIN_COMPARABLES_FOR_WEIGHTED_ESTIMATE
  let expected := expectedPriceOf target listings appliedFilters
  let ranked := rankComparables target comparables
  if sparseData ∨ expected = none ∨ target.price_eur = none then
    { expected_price := expected
      diff_eur := none
      diff_pct := none
      deal_score := none
      comparables_count := comparables.length
      comparables := ranked.take 5
      not_enough_data := true
      applied_filters := appliedFilters }
  else
    let e := expected.getD 0
    let targetPrice := target.price_eur.getD 0
    let diff := e - targetPrice
    let diffPct := diff / e
    { expected_price := expected
      diff_eur := some diff
      diff_pct := some diffPct
      deal_score := some diffPct
      comparables_count := comparables.length
      comparables := ranked.take 5
      not_enough_data := false
      applied_filters := appliedFilters }

/-! ## Store pruning (`pruneListingsOlderThan`, src/lib/storage.ts) -/

/-- A JavaScript `number` argument: finite rational, infinities, or NaN. -/
inductive JSNum where
  | nan
  | posInf
  | negInf
  | fin (q : ℚ)
deriving DecidableEq, Repr

/-- `Number.isFinite`. -/
def JSNum.isFinite : JSNum → Bool
  | .fin _ => true
  | _ => false

/-- `pruneListingsOlderThan(days)` from src/lib/storage.ts, with the
ambient clock (`Date.now()`, milliseconds) and the platform timestamp
parser (`Date.parse`; `none` models the `NaN` result on unparseable input)
passed explicitly.  Returns the store left behind and the removed count. -/
def pruneListingsOlderThan (parse : String → Option ℚ) (now : ℚ)
    (days : JSNum) (listings : ListingsMap) : ListingsMap × ℕ :=
  match days with
  | .fin d =>
    if d ≤ 0 then (listings, 0)
    else
      let threshold := now - d * (24 * 60 * 60 * 1000)
      let isOld := fun (entry : String × Listing) =>
        match parse entry.2.captured_at with
        | some captured => decide (captured < threshold)
        | none => false
      (listings.filter (fun e => ! isOld e), (listings.filter isOld).length)
  | _ => (listings, 0)

/-! ## Import normalization (src/entrypoints/import/main.ts) -/

/-- A parsed JSON value (`JSON.parse` output). -/
inductive Json where
  | null
  | bool (b : Bool)
  | num (q : ℚ)
  | str (s : String)
  | arr (items : List Json)
  | obj (fields : List (String × Json))

/-- Property lookup on a JSON object (`obj[key]`; `none` = `undefined`). -/
def jsLookup (fields : List (String × Json)) (key : String) : Option Json :=
  (fields.find? (fun f => f.1 == key)).map Prod.snd

/-- `!!item && typeof item === 'object'`: truthy values of type
`object` (JSON objects and arrays; `null` is of type `object` but falsy). -/
def isTruthyObject : Json → Bool
  | .obj _ => true
  | .arr _ => true
  | _ => false

/-- `normalizeImportPayload` from src/entrypoints/import/main.ts: bare
array, `{listings: [...]}` / `{data: [...]}`, `{listings: {...}}` /
`{data: {...}}` object maps, or a top-level object map of listings. -/
def normalizeImportPayload (payload : Json) : List Json :=
  match payload with
  | .arr items => items
  | .obj fields =>
    match jsLookup fields "listings" with
    | some (.arr items) => items
    | lv =>
      match jsLookup fields "data" with
      | some (.arr items) => items
      | dv =>
        match lv with
        | some (.obj fs) => fs.map Prod.snd
        | _ =>
          match dv with
          | some (.obj fs) => fs.map Prod.snd
          | _ => (fields.map Prod.snd).filter isTruthyObject
  | _ => []

/-- The call-site filter `(item) => item && typeof item.id === 'string'`
applied to the normalized payload. -/
def hasStringId : Json → Bool
  | .obj fields =>
    match jsLookup fields "id" with
    | some (.str _) => true
    | _ => false
  | _ => false

/-- The array of importable records the import page parses out of a
payload: the normalized payload restricted to items carrying a string id. -/
def importValidListings (payload : Json) : List Json :=
  (normalizeImportPayload payload).filter hasStringId

/-- Modelled from the spec: the background `import_listings` handler's
"replace" mode is not under src (only its import-page and popup callers
are).  Per §6, "replace" is a "wholesale overwrite of the mapping": the
store becomes exactly the imported entries keyed by their `id`, and the
prior mapping is discarded. -/
def importReplace (_prior : List (String × Json)) (items : List Json) :
    List (String × Json) :=
  items.filterMap (fun item =>
    match item with
    | .obj fields =>
      match jsLookup fields "id" with
      | some (.str s) => some (s, item)
      | _ => none
    | _ => none)

/-! ## Spec-side definitions

Definitions written from the specification's words, for comparison with
the source-derived definitions above. -/

/-- The specification's description of the numeric-identifier heuristic:
"the longest run of 6+ consecutive digits found in the string, taking the
last such run if multiple". -/
def longestLastDigitRun (value : Option String) : Option String :=
  match value with
  | none => none
  | some v =>
    if v = "" then none
    else
      ((digitRuns v).filter (fun r => 6 ≤ r.length)).foldl
        (fun best r =>
          match best with
          | none => some r
          | some b => if b.length ≤ r.length then some r else some b)
        none

/-- The identity/dedup relation the exclusion step of `findComparables`
implements: equal ids, equal canonicalizations of two non-empty URLs, or
matching extracted numeric identifiers (last run of 6+ digits). -/
def sameUnderlying (target item : Listing) : Bool :=
  (item.id == target.id) ||
  decide (item.url ≠ "" ∧ target.url ≠ "" ∧
          canonicalizeUrl item.url = canonicalizeUrl target.url) ||
  numericIdMatch (numericIdOf item) (numericIdOf target)

/-- The brand/model/trim bucket test of `findComparables` (rules 2–3):
brand and model truthy on both sides and equal, trim buckets equal. -/
def bucketOk (target item : Listing) : Bool :=
  if ¬ (jsStrTruthy item.brand ∧ jsStrTruthy item.model ∧
        jsStrTruthy target.brand ∧ jsStrTruthy target.model) then false
  else if item.brand ≠ target.brand ∨ item.model ≠ target.model then false
  else if item.trim ≠ target.trim then false
  else true

/-- The year rule of `findComparables`: restrictive only when both year
values are truthy, in which case their distance must be at most 2. -/
def yearRule (target item : Listing) : Bool :=
  if jsNumTruthy item.year ∧ jsNumTruthy target.year ∧
     |item.year.getD 0 - target.year.getD 0| > 2 then false
  else true

/-- The mileage rule of `findComparables`: restrictive only when both
mileage values are truthy, in which case the distance must be at most a
quarter of the target mileage. -/
def mileageRule (target item : Listing) : Bool :=
  if jsNumTruthy item.mileage_km ∧ jsNumTruthy target.mileage_km ∧
     |item.mileage_km.getD 0 - target.mileage_km.getD 0| >
       target.mileage_km.getD 0 * (1 / 4) then false
  else true

/-- The ps rule of `findComparables`: restrictive only when both ps values
are truthy, in which case they must be exactly equal. -/
def psRule (target item : Listing) : Bool :=
  if jsNumTruthy item.ps ∧ jsNumTruthy target.ps ∧ item.ps ≠ target.ps then false
  else true

/-! ## Concrete fixtures for witnesses and counterexamples -/

/-- A listing with every nullable field absent. -/
def emptyListing : Listing :=
  { id := "", url := "", title := none, price_eur := none, price_history := []
    brand := none, model := none, trim := none, year := none, mileage_km := none
    ps := none, erstzulassung := none, fuel := none, drivetrain := none
    transmission := none, captured_at := "", source := .search }

/-- A comparable candidate in the `skoda`/`octavia` bucket with price `p`. -/
def mkComp (i : ℕ) (p : ℚ) : Listing :=
  { emptyListing with id := s!"c{i}", brand := some "skoda", model := some "octavia"
                      price_eur := some p }

/-- A target listing in the same bucket priced at 10000. -/
def targetListing : Listing :=
  { emptyListing with id := "t", brand := some "skoda", model := some "octavia"
                      price_eur := some 10000 }

/-- A store of `n` qualifying comparables priced at `p`. -/
def uniformStore (n : ℕ) (p : ℚ) : ListingsMap :=
  (List.range n).map (fun i => (s!"c{i}", mkComp i p))

/-- A store of five qualifying comparables priced 1000‥5000. -/
def store5 : ListingsMap :=
  [("c0", mkComp 0 1000), ("c1", mkComp 1 2000), ("c2", mkComp 2 3000),
   ("c3", mkComp 3 4000), ("c4", mkComp 4 5000)]

/-- Target with a negative price (reachable through import, whose only
requirement on records is a string id). -/
def targetNeg : Listing := { targetListing with price_eur := some (-2000) }

/-- Ten comparables priced −1000. -/
def storeNeg : ListingsMap := uniformStore 10 (-1000)

/-- Target with 100000 km mileage. -/
def targetMileage : Listing := { targetListing with mileage_km := some 100000 }

/-- A candidate with mileage exactly 0 (non-null) and matching bucket. -/
def candZeroMileage : Listing := { mkComp 0 9000 with mileage_km := some 0 }

/-- Listing whose id holds a 7-digit run followed by a 6-digit run. -/
def listingRunA : Listing :=
  { emptyListing with id := "a9999999b111111", url := "u-a9999999b111111"
                      brand := some "skoda", model := some "octavia"
                      price_eur := some 10000 }

/-- A second listing: different longest run (`8888888`), same last run
(`111111`), different URL. -/
def listingRunB : Listing :=
  { emptyListing with id := "c8888888d111111", url := "u-c8888888d111111"
                      brand := some "skoda", model := some "octavia"
                      price_eur := some 11000 }

/-- Like `listingRunB` but sharing no digit run with `listingRunA`. -/
def listingRunC : Listing :=
  { emptyListing with id := "c8888888d222222", url := "u-c8888888d222222"
                      brand := some "skoda", model := some "octavia"
                      price_eur := some 11000 }

/-- A stored record captured from a search page, without detail fields. -/
def existingSearchRecord : Listing :=
  { emptyListing with id := "t", source := .search }

/-- A later detail-page observation of the same listing carrying the
detail-only fields. -/
def incomingDetailRecord : Listing :=
  { emptyListing with id := "t", fuel := some "diesel", drivetrain := some "allrad"
                      transmission := some "automatik", erstzulassung := some "01/2020"
                      captured_at := "2026-01-01T00:00:00.000Z", source := .detail }

/-- The import scenario payload
`{"data":[{"id":"https://x/a","price_eur":5000}]}`. -/
def importScenarioPayload : Json :=
  .obj [("data", .arr [.obj [("id", .str "https://x/a"), ("price_eur", .num 5000)]])]

/-! ## Helper lemmas -/

attribute [ext] Listing

lemma prefer_right_idem {α : Type} (a b : Option α) : prefer (prefer a b) b = prefer a b := by
  cases b <;> simp [prefer, Option.orElse]

lemma mergeHistory_idem (hist : List PricePoint) (B : Listing) :
    mergeHistory (mergeHistory hist B) B = mergeHistory hist B := by
  unfold mergeHistory
  cases hp : B.price_eur with
  | none => rfl
  | some p =>
    cases hl : hist.getLast? with
    | none =>
      have h2 : (hist ++ [PricePoint.mk p B.captured_at]).getLast? =
          some (PricePoint.mk p B.captured_at) :=
        List.getLast?_append_cons hist _ _
      simp [h2]
    | some last =>
      by_cases hpe : last.price_eur = p
      · simp [hl, hpe]
      · have h2 : (hist ++ [PricePoint.mk p B.captured_at]).getLast? =
            some (PricePoint.mk p B.captured_at) :=
          List.getLast?_append_cons hist _ _
        simp [hl, hpe, h2]

lemma findComparables_mem (t : Listing) (ls : ListingsMap) (fs : Option AnalysisFilters)
    (x : Listing) :
    x ∈ findComparables t ls fs ↔
      x ∈ valuesOf ls ∧
        comparableFilter t (canonicalizeUrl t.url) (numericIdOf t)
          (fs.getD defaultAnalysisFilters) x = true := by
  simp [findComparables, List.mem_filter]

lemma comparableFilter_decomp (t : Listing) (fs : AnalysisFilters) (x : Listing) :
    comparableFilter t (canonicalizeUrl t.url) (numericIdOf t) fs x =
      (!(sameUnderlying t x) && bucketOk t x && matchesActiveFilters t x fs &&
       yearRule t x && mileageRule t x && psRule t x && decide (x.price_eur ≠ none)) := by
  by_cases h1 : x.id = t.id
  · simp [comparableFilter, sameUnderlying, h1]
  by_cases h2 : x.url ≠ "" ∧ t.url ≠ "" ∧ canonicalizeUrl x.url = canonicalizeUrl t.url
  · simp [comparableFilter, sameUnderlying, h1, h2]
  by_cases h3 : numericIdMatch (numericIdOf x) (numericIdOf t) = true
  · simp [comparableFilter, sameUnderlying, h1, h2, h3]
  have hsu : sameUnderlying t x = false := by
    simp only [sameUnderlying, Bool.or_eq_false_iff]
    refine ⟨⟨?_, ?_⟩, ?_⟩
    · simp [h1]
    · simp [h2]
    · simp [h3]
  by_cases h4 : jsStrTruthy x.brand ∧ jsStrTruthy x.model ∧
      jsStrTruthy t.brand ∧ jsStrTruthy t.model
  · by_cases h5 : x.brand ≠ t.brand ∨ x.model ≠ t.model
    · simp [comparableFilter, bucketOk, hsu, h1, h2, h3, h4, h5]
    · by_cases h6 : x.trim ≠ t.trim
      · simp [comparableFilter, bucketOk, hsu, h1, h2, h3, h4, h5, h6]
      · by_cases h7 : matchesActiveFilters t x fs = true
        · by_cases h8 : jsNumTruthy x.year ∧ jsNumTruthy t.year ∧
              |x.year.getD 0 - t.year.getD 0| > 2
          · simp [comparableFilter, bucketOk, yearRule, hsu, h1, h2, h3, h4, h5, h6, h7,
                  h8.1, h8.2.1, h8.2.2]
          · by_cases h9 : jsNumTruthy x.mileage_km ∧ jsNumTruthy t.mileage_km ∧
                |x.mileage_km.getD 0 - t.mileage_km.getD 0| > t.mileage_km.getD 0 * (1 / 4)
            · simp [comparableFilter, bucketOk, yearRule, mileageRule, psRule, hsu, h1, h2, h3,
                    h4, h5, h6, h7, h8, h9.1, h9.2.1, h9.2.2, Bool.and_assoc]
            · by_cases h10 : jsNumTruthy x.ps ∧ jsNumTruthy t.ps ∧ x.ps ≠ t.ps
              · simp [comparableFilter, bucketOk, yearRule, mileageRule, psRule, hsu, h1, h2, h3,
                      h4, h5, h6, h7, h8, h9, h10.1, h10.2.1, h10.2.2, Bool.and_assoc]
              · simp [comparableFilter, bucketOk, yearRule, mileageRule, psRule, hsu, h1, h2, h3,
                      h4, h5, h6, h7, h8, h9, h10, Bool.and_assoc]
        · simp [comparableFilter, bucketOk, hsu, h1, h2, h3, h4, h5, h6, h7]
  · simp [comparableFilter, bucketOk, hsu, h1, h2, h3, h4]

/-! ## Claims -/

/-- C4.  The merge operation is idempotent in its second argument: for any
listings A and B with the same id, `merge(merge(A, B), B) = merge(A, B)` —
in particular re-merging B appends no second price-history entry and
changes no field. -/
theorem mergeListing_idempotent (A B : Listing) (_h : A.id = B.id) :
    mergeListing (some (mergeListing (some A) B)) B = mergeListing (some A) B := by
  unfold mergeListing
  ext <;> simp [prefer_right_idem, mergeHistory_idem]
  · by_cases hu : B.url = "" <;> simp [hu]
  · by_cases hs : B.source = Source.detail <;> simp [hs]

/-- Witness for C4 at a concrete input: the stored search record and the
incoming detail record share the id `"t"`. -/
theorem mergeListing_idempotent_witness :
    existingSearchRecord.id = incomingDetailRecord.id ∧
      mergeListing (some (mergeListing (some existingSearchRecord) incomingDetailRecord))
          incomingDetailRecord =
        mergeListing (some existingSearchRecord) incomingDetailRecord :=
  ⟨rfl, mergeListing_idempotent existingSearchRecord incomingDetailRecord rfl⟩

/-- C5.  Detail provenance is sticky: a stored `source = "detail"` survives
every merge; an incoming `"detail"` forces the merged source to
`"detail"`; otherwise the merged source is the existing one. -/
theorem mergeListing_source_sticky (A B : Listing) :
    (A.source = .detail → (mergeListing (some A) B).source = .detail) ∧
    (B.source = .detail → (mergeListing (some A) B).source = .detail) ∧
    (B.source ≠ .detail → (mergeListing (some A) B).source = A.source) := by
  unfold mergeListing
  by_cases hs : B.source = Source.detail <;> simp [hs]

/-- Witness for C5 at a concrete input: a detail-sourced record merged
with a search-page recapture keeps `source = "detail"`. -/
theorem mergeListing_source_sticky_witness :
    (mergeListing (some incomingDetailRecord) existingSearchRecord).source = .detail ∧
      (mergeListing (some existingSearchRecord) incomingDetailRecord).source = .detail ∧
      (mergeListing (some existingSearchRecord)
          { incomingDetailRecord with source := .search }).source = existingSearchRecord.source :=
  ⟨(mergeListing_source_sticky incomingDetailRecord existingSearchRecord).1 rfl,
   (mergeListing_source_sticky existingSearchRecord incomingDetailRecord).2.1 rfl,
   (mergeListing_source_sticky existingSearchRecord
      { incomingDetailRecord with source := .search }).2.2 (by decide)⟩

/-- C1 (code bug).  `mergeListing` builds the merged record as
`{...existing, ...}` and never lists `fuel`, `drivetrain`, `transmission`
or `erstzulassung`, so an incoming non-null value for those fields is
discarded instead of overwriting: at the concrete failing input, a
detail-page recapture carrying `fuel = "diesel"` (and the other three
detail fields) merges into a record that still has all four fields null —
while the claimed "prefer existing unless incoming non-null" rule would
carry the incoming values. -/
theorem mergeListing_drops_incoming_detail_fields :
    (∀ E I : Listing,
      (mergeListing (some E) I).fuel = E.fuel ∧
      (mergeListing (some E) I).drivetrain = E.drivetrain ∧
      (mergeListing (some E) I).transmission = E.transmission ∧
      (mergeListing (some E) I).erstzulassung = E.erstzulassung) ∧
    incomingDetailRecord.fuel = some "diesel" ∧
    incomingDetailRecord.source = .detail ∧
    existingSearchRecord.fuel = none ∧
    (mergeListing (some existingSearchRecord) incomingDetailRecord).fuel = none ∧
    (mergeListing (some existingSearchRecord) incomingDetailRecord).drivetrain = none ∧
    (mergeListing (some existingSearchRecord) incomingDetailRecord).transmission = none ∧
    (mergeListing (some existingSearchRecord) incomingDetailRecord).erstzulassung = none ∧
    (mergeListing (some existingSearchRecord) incomingDetailRecord).source = .detail := by
  refine ⟨fun E I => ?_, ?_⟩
  · unfold mergeListing
    simp
  · decide

/-- C3 counterexample.  The claim reads the numeric identifier as the
LONGEST run of 6+ digits (last among ties).  Under that reading
`listingRunA` (`9999999`) and `listingRunB` (`8888888`) carry distinct
numeric ids and distinct canonical URLs and distinct ids, so B should
appear among A's comparables — `listingRunC`, identical in shape but
sharing no run with A, does appear.  Yet the engine excludes B, because it
compares the LAST 6+-digit runs (both `111111`). -/
theorem findComparables_longest_run_counterexample :
    longestLastDigitRun (some listingRunA.id) = some "9999999" ∧
    longestLastDigitRun (some listingRunB.id) = some "8888888" ∧
    canonicalizeUrl listingRunA.url ≠ canonicalizeUrl listingRunB.url ∧
    listingRunA.id ≠ listingRunB.id ∧
    findComparables listingRunA [("k", listingRunB)] none = [] ∧
    findComparables listingRunA [("k", listingRunC)] none = [listingRunC] := by
  decide

/-- C3 as amended: the engine's dedup test compares ids, canonicalized
non-empty URLs, and the LAST run of 6+ consecutive digits of the id (URL
as fallback); any listing passing the dedup test is excluded, the result
never contains a listing the test relates to the target — in particular
never the target itself — and two listings with matching extracted
numeric ids never appear as comparables of each other. -/
theorem findComparables_dedup_last_run :
    (∀ (t : Listing) (ls : ListingsMap) (fs : Option AnalysisFilters) (x : Listing),
      x ∈ findComparables t ls fs → sameUnderlying t x = false) ∧
    (∀ (t : Listing) (fs : AnalysisFilters) (x : Listing), sameUnderlying t x = true →
      comparableFilter t (canonicalizeUrl t.url) (numericIdOf t) fs x = false) ∧
    (∀ (t : Listing) (ls : ListingsMap) (fs : Option AnalysisFilters),
      t ∉ findComparables t ls fs) ∧
    (∀ (t : Listing) (ls : ListingsMap) (fs : Option AnalysisFilters) (x : Listing) (n : String),
      numericIdOf t = some n → numericIdOf x = some n → x ∉ findComparables t ls fs) := by
  have hmem : ∀ (t : Listing) (ls : ListingsMap) (fs : Option AnalysisFilters) (x : Listing),
      x ∈ findComparables t ls fs → sameUnderlying t x = false := by
    intro t ls fs x hx
    rw [findComparables_mem] at hx
    have hf := hx.2
    rw [comparableFilter_decomp] at hf
    by_contra hns
    have hst : sameUnderlying t x = true := by
      cases h : sameUnderlying t x
      · exact absurd h hns
      · rfl
    simp [hst] at hf
  refine ⟨hmem, ?_, ?_, ?_⟩
  · intro t fs x hsu
    rw [comparableFilter_decomp, hsu]
    simp
  · intro t ls fs hmem2
    have hfalse := hmem t ls fs t hmem2
    simp [sameUnderlying] at hfalse
  · intro t ls fs x n hnt hnx hmem2
    have hfalse := hmem t ls fs x hmem2
    simp [sameUnderlying, numericIdMatch, hnt, hnx] at hfalse

/-- Witness for C3's amended theorem at a concrete input: `listingRunA`
and `listingRunB` extract the same numeric id `111111`, so B is not among
A's comparables. -/
theorem findComparables_dedup_last_run_witness :
    numericIdOf listingRunA = some "111111" ∧
    numericIdOf listingRunB = some "111111" ∧
    listingRunB ∉ findComparables listingRunA [("k", listingRunB)] none :=
  ⟨by decide, by decide,
   findComparables_dedup_last_run.2.2.2 listingRunA [("k", listingRunB)] none listingRunB
     "111111" (by decide) (by decide)⟩

/-- C6 counterexample.  The claim says the mileage rule applies whenever
both mileage values are non-null, "including the value 0".  The code tests
truthiness, and `0` is falsy: a candidate with `mileage_km = 0` against a
target with `mileage_km = 100000` violates the claimed bound
(`|0 − 100000| > 100000·0.25`), yet the engine returns it as a
comparable because the rule is skipped. -/
theorem findComparables_zero_mileage_counterexample :
    targetMileage.mileage_km = some 100000 ∧
    candZeroMileage.mileage_km = some 0 ∧
    |(0 : ℚ) - 100000| > 100000 * (1 / 4) ∧
    findComparables targetMileage [("c0", candZeroMileage)] none = [candZeroMileage] := by
  refine ⟨by decide, by decide, by norm_num, by decide⟩

/-- C6 as amended: the year, mileage and ps rules each constrain a
candidate exactly when the corresponding attribute is TRUTHY (non-null and
non-zero) on both candidate and target; a null — or zero — attribute on
either side makes the rule skipped, never failing (a zero value is
interchangeable with a missing one throughout the filter). -/
theorem findComparables_truthiness_rules :
    (∀ (t : Listing) (ls : ListingsMap) (fs : Option AnalysisFilters) (x : Listing),
      x ∈ findComparables t ls fs →
        yearRule t x = true ∧ mileageRule t x = true ∧ psRule t x = true) ∧
    (∀ t x : Listing, jsNumTruthy x.mileage_km = true → jsNumTruthy t.mileage_km = true →
      (mileageRule t x = true ↔
        |x.mileage_km.getD 0 - t.mileage_km.getD 0| ≤ t.mileage_km.getD 0 * (1 / 4))) ∧
    (∀ t x : Listing, jsNumTruthy x.year = true → jsNumTruthy t.year = true →
      (yearRule t x = true ↔ |x.year.getD 0 - t.year.getD 0| ≤ 2)) ∧
    (∀ t x : Listing, jsNumTruthy x.ps = true → jsNumTruthy t.ps = true →
      (psRule t x = true ↔ x.ps = t.ps)) ∧
    (∀ t x : Listing,
      x.mileage_km = none ∨ t.mileage_km = none ∨ x.mileage_km = some 0 ∨ t.mileage_km = some 0 →
        mileageRule t x = true) ∧
    (∀ (t : Listing) (tcu : String) (tni : Option String) (fs : AnalysisFilters) (x : Listing),
      comparableFilter t tcu tni fs { x with mileage_km := some 0 } =
        comparableFilter t tcu tni fs { x with mileage_km := none } ∧
      comparableFilter { t with mileage_km := some 0 } tcu tni fs x =
        comparableFilter { t with mileage_km := none } tcu tni fs x ∧
      comparableFilter t tcu tni fs { x with year := some 0 } =
        comparableFilter t tcu tni fs { x with year := none } ∧
      comparableFilter t tcu tni fs { x with ps := some 0 } =
        comparableFilter t tcu tni fs { x with ps := none }) := by
  refine ⟨?_, ?_, ?_, ?_, ?_, ?_⟩
  · intro t ls fs x hx
    rw [findComparables_mem] at hx
    have hf := hx.2
    rw [comparableFilter_decomp] at hf
    simp only [Bool.and_eq_true] at hf
    exact ⟨hf.1.1.1.2, hf.1.1.2, hf.1.2⟩
  · intro t x h1 h2
    simp [mileageRule, h1, h2, not_lt]
  · intro t x h1 h2
    simp [yearRule, h1, h2, not_lt]
  · intro t x h1 h2
    simp [psRule, h1, h2]
  · intro t x h
    rcases h with h | h | h | h <;> simp [mileageRule, h, jsNumTruthy]
  · intro t tcu tni fs x
    refine ⟨?_, ?_, ?_, ?_⟩ <;> rfl

/-- Witness for C6's amended theorem at a concrete input: both mileages
truthy (80000 vs 100000), and the rule holds since 20000 ≤ 25000. -/
theorem findComparables_truthiness_rules_witness :
    mileageRule targetMileage { emptyListing with mileage_km := some 80000 } = true :=
  (findComparables_truthiness_rules.2.1 targetMileage
      { emptyListing with mileage_km := some 80000 } (by decide) (by decide)).mpr
    (by norm_num [emptyListing, targetMileage, targetListing])

/-! ## Weight and estimation lemmas -/

lemma one_div_weight_bounds (yd mr : ℚ) (hy : 0 ≤ yd) (hm : 0 ≤ mr) :
    0 < 1 / (1 + yd + mr * 4) ∧ 1 / (1 + yd + mr * 4) ≤ 1 := by
  have hd : (0:ℚ) < 1 + yd + mr * 4 := by linarith
  constructor
  · exact div_pos one_pos hd
  · rw [div_le_one hd]
    linarith

lemma listingDistanceWeight_bounds (t x : Listing) :
    0 < listingDistanceWeight t x ∧ listingDistanceWeight t x ≤ 1 := by
  unfold listingDistanceWeight
  apply one_div_weight_bounds
  · rcases t.year with _ | a <;> rcases x.year with _ | b <;> norm_num
  · rcases t.mileage_km with _ | a <;> rcases x.mileage_km with _ | b
    · norm_num
    · norm_num
    · norm_num
    · apply div_nonneg (abs_nonneg _)
      have hmax := le_max_right a (1:ℚ)
      linarith

lemma weightAccum_foldl_snd_mono (t : Listing) (comps : List Listing) :
    ∀ acc : ℚ × ℚ, acc.2 ≤ (comps.foldl (fun a c =>
      match c.price_eur with
      | none => a
      | some p => (a.1 + p * listingDistanceWeight t c, a.2 + listingDistanceWeight t c)) acc).2 := by
  induction comps with
  | nil => intro acc; simp
  | cons c cs ih =>
    intro acc
    simp only [List.foldl_cons]
    cases hc : c.price_eur with
    | none => exact ih acc
    | some p =>
      have hw := (listingDistanceWeight_bounds t c).1
      have step := ih (acc.1 + p * listingDistanceWeight t c, acc.2 + listingDistanceWeight t c)
      simp only at step
      calc acc.2 ≤ acc.2 + listingDistanceWeight t c := by linarith
        _ ≤ _ := step

lemma weightAccum_snd_pos (t : Listing) (comps : List Listing) (hne : comps ≠ [])
    (hall : ∀ x ∈ comps, x.price_eur ≠ none) :
    0 < (weightAccum t comps).2 := by
  unfold weightAccum
  cases comps with
  | nil => exact absurd rfl hne
  | cons c cs =>
    simp only [List.foldl_cons]
    cases hc : c.price_eur with
    | none => exact absurd hc (hall c (List.mem_cons_self c cs))
    | some p =>
      have hw := (listingDistanceWeight_bounds t c).1
      have step := weightAccum_foldl_snd_mono t cs
        (0 + p * listingDistanceWeight t c, 0 + listingDistanceWeight t c)
      simp only at step
      calc (0:ℚ) < 0 + listingDistanceWeight t c := by linarith
        _ ≤ _ := step

lemma weightAccum_const (t : Listing) (p : ℚ) (comps : List Listing)
    (h : ∀ x ∈ comps, x.price_eur = some p) :
    (weightAccum t comps).1 = p * (weightAccum t comps).2 := by
  unfold weightAccum
  have key : ∀ (l : List Listing), (∀ x ∈ l, x.price_eur = some p) → ∀ acc : ℚ × ℚ,
      (l.foldl (fun a c =>
        match c.price_eur with
        | none => a
        | some q => (a.1 + q * listingDistanceWeight t c, a.2 + listingDistanceWeight t c)) acc).1 -
        p * (l.foldl (fun a c =>
        match c.price_eur with
        | none => a
        | some q => (a.1 + q * listingDistanceWeight t c, a.2 + listingDistanceWeight t c)) acc).2 =
        acc.1 - p * acc.2 := by
    intro l
    induction l with
    | nil => intro _ acc; simp
    | cons c cs ih =>
      intro hl acc
      have hc := hl c (List.mem_cons_self c cs)
      simp only [List.foldl_cons, hc]
      have step := ih (fun x hx => hl x (List.mem_cons.mpr (Or.inr hx)))
        (acc.1 + p * listingDistanceWeight t c, acc.2 + listingDistanceWeight t c)
      simp only at step
      rw [step]
      ring
  have hk := key comps h (0, 0)
  simp only at hk
  linarith

lemma weightedExpectedPrice_some (t : Listing) (comps : List Listing) (hne : comps ≠ [])
    (hall : ∀ x ∈ comps, x.price_eur ≠ none) :
    weightedExpectedPrice t comps =
      some ((weightAccum t comps).1 / (weightAccum t comps).2) := by
  unfold weightedExpectedPrice
  rw [if_neg hne]
  have h2 := ne_of_gt (weightAccum_snd_pos t comps hne hall)
  exact if_neg h2

lemma weightedExpectedPrice_const (t : Listing) (p : ℚ) (comps : List Listing)
    (hne : comps ≠ []) (h : ∀ x ∈ comps, x.price_eur = some p) :
    weightedExpectedPrice t comps = some p := by
  have hall : ∀ x ∈ comps, x.price_eur ≠ none := by
    intro x hx
    rw [h x hx]
    simp
  rw [weightedExpectedPrice_some t comps hne hall]
  have hpos := weightAccum_snd_pos t comps hne hall
  rw [weightAccum_const t p comps h, mul_div_assoc, div_self (ne_of_gt hpos), mul_one]

lemma analyzeListing_eq (t : Listing) (ls : ListingsMap) (fs : AnalysisFilters) :
    analyzeListing t ls (some fs) =
      if (findComparables t ls (some fs)).length < MIN_COMPARABLES_FOR_WEIGHTED_ESTIMATE ∨
         expectedPriceOf t ls fs = none ∨ t.price_eur = none then
        { expected_price := expectedPriceOf t ls fs, diff_eur := none, diff_pct := none,
          deal_score := none,
          comparables_count := (findComparables t ls (some fs)).length,
          comparables := (rankComparables t (findComparables t ls (some fs))).take 5,
          not_enough_data := true, applied_filters := fs }
      else
        { expected_price := expectedPriceOf t ls fs,
          diff_eur := some ((expectedPriceOf t ls fs).getD 0 - t.price_eur.getD 0),
          diff_pct := some (((expectedPriceOf t ls fs).getD 0 - t.price_eur.getD 0) /
            (expectedPriceOf t ls fs).getD 0),
          deal_score := some (((expectedPriceOf t ls fs).getD 0 - t.price_eur.getD 0) /
            (expectedPriceOf t ls fs).getD 0),
          comparables_count := (findComparables t ls (some fs)).length,
          comparables := (rankComparables t (findComparables t ls (some fs))).take 5,
          not_enough_data := false, applied_filters := fs } := rfl

lemma store10_expected :
    expectedPriceOf targetListing (uniformStore 10 10000) defaultAnalysisFilters = some 10000 := by
  have hcomps : findComparables targetListing (uniformStore 10 10000)
      (some defaultAnalysisFilters) = valuesOf (uniformStore 10 10000) := by decide
  have htne : trimPriceOutliers ((valuesOf (uniformStore 10 10000)).filter
      (fun item => item.price_eur ≠ none)) ≠ [] := by decide
  have htall : ∀ x ∈ trimPriceOutliers ((valuesOf (uniformStore 10 10000)).filter
      (fun item => item.price_eur ≠ none)), x.price_eur = some 10000 := by decide
  simp only [expectedPriceOf, hcomps]
  have hlen2 : (valuesOf (uniformStore 10 10000)).length = 10 := by decide
  rw [hlen2]
  simp only [MIN_COMPARABLES_FOR_WEIGHTED_ESTIMATE]
  norm_num
  exact weightedExpectedPrice_const targetListing 10000 _ htne htall

lemma store10_gate_cond :
    ¬ ((findComparables targetListing (uniformStore 10 10000)
        (some defaultAnalysisFilters)).length < MIN_COMPARABLES_FOR_WEIGHTED_ESTIMATE ∨
      expectedPriceOf targetListing (uniformStore 10 10000) defaultAnalysisFilters = none ∨
      targetListing.price_eur = none) := by
  have hlen : (findComparables targetListing (uniformStore 10 10000)
      (some defaultAnalysisFilters)).length = 10 := by decide
  have hprice : targetListing.price_eur = some 10000 := by decide
  intro hc
  rcases hc with hc | hc | hc
  · rw [hlen] at hc
    simp [MIN_COMPARABLES_FOR_WEIGHTED_ESTIMATE] at hc
  · rw [store10_expected] at hc
    exact Option.noConfusion hc
  · rw [hprice] at hc
    exact Option.noConfusion hc

lemma store10_not_enough :
    (analyzeListing targetListing (uniformStore 10 10000)
      (some defaultAnalysisFilters)).not_enough_data = false := by
  rw [analyzeListing_eq, if_neg store10_gate_cond]

/-- C2.  The sufficiency gate: `not_enough_data` is true exactly when the
qualifying comparable count is below 10, or the expected price is null, or
the target price is null; in that case `diff_eur`, `diff_pct` and
`deal_score` are all null while `expected_price` and the ranked top-5 are
still returned.  Concretely: 9 comparables give `not_enough_data = true`
(with `expected_price` still the median), 10 give `false` (all prices and
the target price non-null), and 5 give `true` with `expected_price` the
median of the 5 prices. -/
theorem analyzeListing_sufficiency_gate :
    (∀ (t : Listing) (ls : ListingsMap) (fs : AnalysisFilters),
      (analyzeListing t ls (some fs)).not_enough_data = true ↔
        ((findComparables t ls (some fs)).length < 10 ∨
         (analyzeListing t ls (some fs)).expected_price = none ∨ t.price_eur = none)) ∧
    (∀ (t : Listing) (ls : ListingsMap) (fs : AnalysisFilters),
      (analyzeListing t ls (some fs)).not_enough_data = true →
        (analyzeListing t ls (some fs)).diff_eur = none ∧
        (analyzeListing t ls (some fs)).diff_pct = none ∧
        (analyzeListing t ls (some fs)).deal_score = none) ∧
    (∀ (t : Listing) (ls : ListingsMap) (fs : AnalysisFilters),
      (analyzeListing t ls (some fs)).expected_price = expectedPriceOf t ls fs ∧
      (analyzeListing t ls (some fs)).comparables =
        (rankComparables t (findComparables t ls (some fs))).take 5 ∧
      (analyzeListing t ls (some fs)).comparables_count =
        (findComparables t ls (some fs)).length) ∧
    ((findComparables targetListing (uniformStore 9 10000) (some defaultAnalysisFilters)).length = 9 ∧
      (analyzeListing targetListing (uniformStore 9 10000) (some defaultAnalysisFilters)).not_enough_data = true ∧
      (analyzeListing targetListing (uniformStore 9 10000) (some defaultAnalysisFilters)).expected_price = some 10000) ∧
    ((findComparables targetListing (uniformStore 10 10000) (some defaultAnalysisFilters)).length = 10 ∧
      targetListing.price_eur = some 10000 ∧
      (analyzeListing targetListing (uniformStore 10 10000) (some defaultAnalysisFilters)).expected_price = some 10000 ∧
      (analyzeListing targetListing (uniformStore 10 10000) (some defaultAnalysisFilters)).not_enough_data = false) ∧
    ((analyzeListing targetListing store5 (some defaultAnalysisFilters)).not_enough_data = true ∧
      (analyzeListing targetListing store5 (some defaultAnalysisFilters)).expected_price = some 3000 ∧
      (analyzeListing targetListing store5 (some defaultAnalysisFilters)).diff_eur = none ∧
      (analyzeListing targetListing store5 (some defaultAnalysisFilters)).comparables =
        rankComparables targetListing (findComparables targetListing store5 (some defaultAnalysisFilters))) := by
  have hgate : ∀ (t : Listing) (ls : ListingsMap) (fs : AnalysisFilters),
      (analyzeListing t ls (some fs)).not_enough_data = true ↔
        ((findComparables t ls (some fs)).length < 10 ∨
         (analyzeListing t ls (some fs)).expected_price = none ∨ t.price_eur = none) := by
    intro t ls fs
    by_cases h : ((findComparables t ls (some fs)).length <
        MIN_COMPARABLES_FOR_WEIGHTED_ESTIMATE ∨
        expectedPriceOf t ls fs = none ∨ t.price_eur = none)
    · rw [analyzeListing_eq, if_pos h]
      simpa [MIN_COMPARABLES_FOR_WEIGHTED_ESTIMATE] using h
    · rw [analyzeListing_eq, if_neg h]
      simpa [MIN_COMPARABLES_FOR_WEIGHTED_ESTIMATE] using h
  refine ⟨hgate, ?_, ?_, ?_, ?_, ?_⟩
  · intro t ls fs h
    rw [analyzeListing_eq] at h ⊢
    by_cases hc : ((findComparables t ls (some fs)).length <
        MIN_COMPARABLES_FOR_WEIGHTED_ESTIMATE ∨
        expectedPriceOf t ls fs = none ∨ t.price_eur = none)
    · rw [if_pos hc]
      exact ⟨rfl, rfl, rfl⟩
    · rw [if_neg hc] at h
      simp at h
  · intro t ls fs
    rw [analyzeListing_eq]
    by_cases hc : ((findComparables t ls (some fs)).length <
        MIN_COMPARABLES_FOR_WEIGHTED_ESTIMATE ∨
        expectedPriceOf t ls fs = none ∨ t.price_eur = none)
    · rw [if_pos hc]
      exact ⟨rfl, rfl, rfl⟩
    · rw [if_neg hc]
      exact ⟨rfl, rfl, rfl⟩
  · refine ⟨by decide, by decide, by decide⟩
  · refine ⟨by decide, by decide, ?_, store10_not_enough⟩
    rw [analyzeListing_eq, if_neg store10_gate_cond]
    exact store10_expected
  · refine ⟨by decide, by decide, by decide, ?_⟩
    have h5 : (findComparables targetListing store5 (some defaultAnalysisFilters)).length = 5 := by
      decide
    rw [analyzeListing_eq, if_pos]
    · show _ = rankComparables targetListing (findComparables targetListing store5
        (some defaultAnalysisFilters))
      have hrlen : (rankComparables targetListing (findComparables targetListing store5
          (some defaultAnalysisFilters))).length = 5 := by
        rw [rankComparables, List.length_insertionSort]
        decide
      exact List.take_of_length_le (by rw [hrlen])
    · left
      rw [h5]
      simp [MIN_COMPARABLES_FOR_WEIGHTED_ESTIMATE]

/-- Witness for C2 at a concrete input: with 9 comparables the gate is
insufficient and the three derived fields are null. -/
theorem analyzeListing_sufficiency_gate_witness :
    (analyzeListing targetListing (uniformStore 9 10000)
        (some defaultAnalysisFilters)).diff_eur = none ∧
    (analyzeListing targetListing (uniformStore 9 10000)
        (some defaultAnalysisFilters)).diff_pct = none ∧
    (analyzeListing targetListing (uniformStore 9 10000)
        (some defaultAnalysisFilters)).deal_score = none :=
  analyzeListing_sufficiency_gate.2.1 targetListing (uniformStore 9 10000)
    defaultAnalysisFilters (by decide)

/-- C10.  Every distance weight is in `(0, 1]`, every listing returned by
`findComparables` has a non-null price, so for any non-empty comparable
set of priced listings the total weight is strictly positive and
`weightedExpectedPrice` returns the weighted quotient — its
zero-total-weight median fallback is unreachable on engine-produced
inputs. -/
theorem weightedExpectedPrice_total_weight_pos :
    (∀ t x : Listing, 0 < listingDistanceWeight t x ∧ listingDistanceWeight t x ≤ 1) ∧
    (∀ (t : Listing) (ls : ListingsMap) (fs : Option AnalysisFilters) (x : Listing),
      x ∈ findComparables t ls fs → x.price_eur ≠ none) ∧
    (∀ (t : Listing) (comps : List Listing), comps ≠ [] →
      (∀ x ∈ comps, x.price_eur ≠ none) →
      0 < (weightAccum t comps).2 ∧
        weightedExpectedPrice t comps =
          some ((weightAccum t comps).1 / (weightAccum t comps).2)) := by
  refine ⟨listingDistanceWeight_bounds, ?_, ?_⟩
  · intro t ls fs x hx
    rw [findComparables_mem] at hx
    have hf := hx.2
    rw [comparableFilter_decomp] at hf
    simp only [Bool.and_eq_true, decide_eq_true_eq] at hf
    exact hf.2
  · intro t comps hne hall
    exact ⟨weightAccum_snd_pos t comps hne hall, weightedExpectedPrice_some t comps hne hall⟩

/-- Witness for C10 at a concrete input: a singleton priced comparable
set has positive total weight and takes the weighted branch. -/
theorem weightedExpectedPrice_total_weight_pos_witness :
    0 < (weightAccum targetListing [mkComp 0 10000]).2 ∧
      weightedExpectedPrice targetListing [mkComp 0 10000] =
        some ((weightAccum targetListing [mkComp 0 10000]).1 /
          (weightAccum targetListing [mkComp 0 10000]).2) :=
  weightedExpectedPrice_total_weight_pos.2.2 targetListing [mkComp 0 10000]
    (by decide) (by decide)

/-- C8 counterexample.  The claimed sign property `expected_price >
target.price_eur → deal_score > 0` fails when the expected price is
negative (negative prices are representable — import only requires a
string id): with ten comparables at −1000 and a target priced −2000 the
expected price −1000 exceeds the target price, yet
`deal_score = 1000 / (−1000) = −1 < 0`. -/
theorem analyzeListing_deal_score_sign_counterexample :
    targetNeg.price_eur = some (-2000) ∧
    (analyzeListing targetNeg storeNeg (some defaultAnalysisFilters)).not_enough_data = false ∧
    (analyzeListing targetNeg storeNeg (some defaultAnalysisFilters)).expected_price = some (-1000) ∧
    ((-2000 : ℚ) < -1000) ∧
    (analyzeListing targetNeg storeNeg (some defaultAnalysisFilters)).deal_score = some (-1) ∧
    ¬ (0:ℚ) < -1 := by
  have hcomps : findComparables targetNeg storeNeg (some defaultAnalysisFilters) =
      valuesOf storeNeg := by decide
  have hlen : (findComparables targetNeg storeNeg (some defaultAnalysisFilters)).length = 10 := by
    decide
  have htne : trimPriceOutliers ((valuesOf storeNeg).filter
      (fun item => item.price_eur ≠ none)) ≠ [] := by decide
  have htall : ∀ x ∈ trimPriceOutliers ((valuesOf storeNeg).filter
      (fun item => item.price_eur ≠ none)), x.price_eur = some (-1000) := by decide
  have hexp : expectedPriceOf targetNeg storeNeg defaultAnalysisFilters = some (-1000) := by
    simp only [expectedPriceOf, hcomps]
    have hlen2 : (valuesOf storeNeg).length = 10 := by decide
    rw [hlen2]
    simp only [MIN_COMPARABLES_FOR_WEIGHTED_ESTIMATE]
    norm_num
    exact weightedExpectedPrice_const targetNeg (-1000) _ htne htall
  have hprice : targetNeg.price_eur = some (-2000) := by decide
  have hcond : ¬ ((findComparables targetNeg storeNeg (some defaultAnalysisFilters)).length <
      MIN_COMPARABLES_FOR_WEIGHTED_ESTIMATE ∨
      expectedPriceOf targetNeg storeNeg defaultAnalysisFilters = none ∨
      targetNeg.price_eur = none) := by
    intro hc
    rcases hc with hc | hc | hc
    · rw [hlen] at hc
      simp [MIN_COMPARABLES_FOR_WEIGHTED_ESTIMATE] at hc
    · rw [hexp] at hc
      exact Option.noConfusion hc
    · rw [hprice] at hc
      exact Option.noConfusion hc
  refine ⟨hprice, ?_, ?_, by norm_num, ?_, by norm_num⟩
  · rw [analyzeListing_eq, if_neg hcond]
  · rw [analyzeListing_eq, if_neg hcond]
    exact hexp
  · rw [analyzeListing_eq, if_neg hcond]
    simp only [hexp, hprice]
    norm_num

/-- C8 as amended: on every sufficient result the formulas hold —
`diff_eur = expected − price`, `diff_pct = diff_eur / expected`,
`deal_score = diff_pct`, unclamped — and the sign consequence
`deal_score > 0` holds under the additional proviso that the expected
price is positive. -/
theorem analyzeListing_deal_score_formula :
    ∀ (t : Listing) (ls : ListingsMap) (fs : AnalysisFilters),
      (analyzeListing t ls (some fs)).not_enough_data = false →
      ∃ e p : ℚ, (analyzeListing t ls (some fs)).expected_price = some e ∧
        t.price_eur = some p ∧
        (analyzeListing t ls (some fs)).diff_eur = some (e - p) ∧
        (analyzeListing t ls (some fs)).diff_pct = some ((e - p) / e) ∧
        (analyzeListing t ls (some fs)).deal_score = (analyzeListing t ls (some fs)).diff_pct ∧
        (0 < e → p < e → 0 < (e - p) / e) := by
  intro t ls fs h
  rw [analyzeListing_eq] at h ⊢
  by_cases hc : ((findComparables t ls (some fs)).length <
      MIN_COMPARABLES_FOR_WEIGHTED_ESTIMATE ∨
      expectedPriceOf t ls fs = none ∨ t.price_eur = none)
  · rw [if_pos hc] at h
    simp at h
  · rw [if_neg hc]
    push_neg at hc
    obtain ⟨hl, he, hp⟩ := hc
    obtain ⟨e, he2⟩ := Option.ne_none_iff_exists'.mp he
    obtain ⟨p, hp2⟩ := Option.ne_none_iff_exists'.mp hp
    refine ⟨e, p, ?_, hp2, ?_, ?_, rfl, ?_⟩
    · exact he2
    · simp [he2, hp2]
    · simp [he2, hp2]
    · intro h0 hpe
      apply div_pos
      · linarith
      · exact h0

/-- Witness for C8's amended theorem at the 10-comparable store, where
the analysis is sufficient. -/
theorem analyzeListing_deal_score_formula_witness :
    ∃ e p : ℚ,
      (analyzeListing targetListing (uniformStore 10 10000)
          (some defaultAnalysisFilters)).expected_price = some e ∧
      targetListing.price_eur = some p ∧
      (analyzeListing targetListing (uniformStore 10 10000)
          (some defaultAnalysisFilters)).diff_eur = some (e - p) ∧
      (analyzeListing targetListing (uniformStore 10 10000)
          (some defaultAnalysisFilters)).diff_pct = some ((e - p) / e) ∧
      (analyzeListing targetListing (uniformStore 10 10000)
          (some defaultAnalysisFilters)).deal_score =
        (analyzeListing targetListing (uniformStore 10 10000)
          (some defaultAnalysisFilters)).diff_pct ∧
      (0 < e → p < e → 0 < (e - p) / e) :=
  analyzeListing_deal_score_formula targetListing (uniformStore 10 10000)
    defaultAnalysisFilters store10_not_enough

lemma length_filter_bool_split {α : Type} (l : List α) (p : α → Bool) :
    (l.filter (fun a => ! p a)).length + (l.filter p).length = l.length := by
  induction l with
  | nil => rfl
  | cons a l ih => cases hp : p a <;> simp [List.filter_cons, hp] <;> omega

/-- C7.  `pruneOlderThan(days)` removes exactly the records whose
`captured_at` parses to a timestamp strictly older than
`now − days·24h` and returns their count; records whose timestamp does
not parse are never removed; a non-finite or non-positive `days` returns
0 and leaves the store untouched. -/
theorem pruneListingsOlderThan_spec :
    (∀ (parse : String → Option ℚ) (now d : ℚ) (ls : ListingsMap), 0 < d →
      ((∀ e : String × Listing,
          e ∈ (pruneListingsOlderThan parse now (.fin d) ls).1 ↔
            e ∈ ls ∧ ¬ ∃ ts, parse e.2.captured_at = some ts ∧
              ts < now - d * (24 * 60 * 60 * 1000)) ∧
        (pruneListingsOlderThan parse now (.fin d) ls).2 +
          (pruneListingsOlderThan parse now (.fin d) ls).1.length = ls.length ∧
        (∀ e : String × Listing, e ∈ ls → parse e.2.captured_at = none →
          e ∈ (pruneListingsOlderThan parse now (.fin d) ls).1))) ∧
    (∀ (parse : String → Option ℚ) (now : ℚ) (ls : ListingsMap),
      pruneListingsOlderThan parse now .nan ls = (ls, 0) ∧
      pruneListingsOlderThan parse now .posInf ls = (ls, 0) ∧
      pruneListingsOlderThan parse now .negInf ls = (ls, 0)) ∧
    (∀ (parse : String → Option ℚ) (now d : ℚ) (ls : ListingsMap), d ≤ 0 →
      pruneListingsOlderThan parse now (.fin d) ls = (ls, 0)) := by
  refine ⟨?_, ?_, ?_⟩
  · intro parse now d ls hd
    have hnle : ¬ d ≤ 0 := not_le.mpr hd
    simp only [pruneListingsOlderThan, hnle, if_false]
    refine ⟨?_, ?_, ?_⟩
    · intro e
      rw [List.mem_filter]
      constructor
      · rintro ⟨hmem, hkeep⟩
        refine ⟨hmem, ?_⟩
        rintro ⟨ts, hts, hlt⟩
        rw [hts] at hkeep
        simp [hlt] at hkeep
      · rintro ⟨hmem, hno⟩
        refine ⟨hmem, ?_⟩
        cases hp : parse e.2.captured_at with
        | none => simp
        | some ts =>
          simp only [Bool.not_eq_true']
          by_contra hcontra
          simp [hp] at hcontra
          exact hno ⟨ts, hp, by linarith⟩
    · rw [Nat.add_comm]
      exact length_filter_bool_split ls _
    · intro e hmem hnone
      rw [List.mem_filter]
      refine ⟨hmem, ?_⟩
      simp [hnone]
  · intro parse now ls
    exact ⟨rfl, rfl, rfl⟩
  · intro parse now d ls hd
    simp only [pruneListingsOlderThan, hd, if_true]

/-- Witness for C7 at concrete inputs: an unparseable timestamp survives a
positive prune, and a negative `days` leaves the store untouched with
count 0. -/
theorem pruneListingsOlderThan_spec_witness :
    ("a", emptyListing) ∈
      (pruneListingsOlderThan (fun _ => none) 0 (.fin 1) [("a", emptyListing)]).1 ∧
    pruneListingsOlderThan (fun _ => none) 0 (.fin (-1)) [("a", emptyListing)] =
      ([("a", emptyListing)], 0) :=
  ⟨(pruneListingsOlderThan_spec.1 (fun _ => none) 0 1 [("a", emptyListing)]
      (by norm_num)).2.2 ("a", emptyListing) (by simp) rfl,
   pruneListingsOlderThan_spec.2.2 (fun _ => none) 0 (-1) [("a", emptyListing)]
     (by norm_num)⟩

/-- C9.  The import page's payload normalization accepts a bare array,
`{listings: [...]}`, `{data: [...]}`, or an object map of listings, keeps
exactly the items carrying a string id, and in "replace" mode (modelled
from the spec, the handler itself being outside src) the resulting store
mapping is exactly the imported entries keyed by id, for any prior store —
concretely `{"data":[{"id":"https://x/a","price_eur":5000}]}` replaces any
prior store with exactly the mapping `{"https://x/a": {...}}`. -/
theorem importReplace_normalization_spec :
    (∀ items : List Json, normalizeImportPayload (.arr items) = items) ∧
    (∀ items : List Json, normalizeImportPayload (.obj [("listings", .arr items)]) = items) ∧
    (∀ items : List Json, normalizeImportPayload (.obj [("data", .arr items)]) = items) ∧
    (∀ fields : List (String × Json),
      jsLookup fields "listings" = none → jsLookup fields "data" = none →
      normalizeImportPayload (.obj fields) = (fields.map Prod.snd).filter isTruthyObject) ∧
    (∀ (payload : Json) (j : Json),
      j ∈ importValidListings payload ↔
        j ∈ normalizeImportPayload payload ∧ hasStringId j = true) ∧
    (∀ prior : List (String × Json),
      importReplace prior (importValidListings importScenarioPayload) =
        [("https://x/a", .obj [("id", .str "https://x/a"), ("price_eur", .num 5000)])]) := by
  refine ⟨fun items => rfl, fun items => rfl, fun items => rfl, ?_, ?_, fun prior => rfl⟩
  · intro fields h1 h2
    simp only [normalizeImportPayload, h1, h2]
  · intro payload j
    simp [importValidListings, List.mem_filter]

/-- Witness for C9 at a concrete object-map payload without `listings` or
`data` keys: the object's values are kept, non-object values dropped. -/
theorem importReplace_normalization_spec_witness :
    normalizeImportPayload (.obj [("x", .obj [("id", .str "a")]), ("y", .num 1)]) =
      [.obj [("id", .str "a")]] :=
  (importReplace_normalization_spec.2.2.2.1
      [("x", .obj [("id", .str "a")]), ("y", .num 1)] rfl rfl).trans rfl

end DealGauge
